import Mathlib

/-!
Verification of the canonical Huffman decode-table subsystem and the FIFF
container parser of the rawspeed RAW-decoder library.

The repository ships the unit tests of `AbstractHuffmanTable`
(test/librawspeed/decompressors/AbstractHuffmanTableTest.cpp) and the
parser `FiffParser.cpp`.  The implementation of `AbstractHuffmanTable`
itself is not among the shipped sources, so its operations are modelled
from the specification, pinned down wherever the shipped unit tests fix
concrete behaviour.  `FiffParser::getDecoder` is embedded directly from
its source.
-/

/-- Modelled from the spec: the pure helper `AbstractHuffmanTable::signExtended`
(its implementation is not among the shipped sources).  The spec states the
sign-recovery rule "if `diff < 2^(len-1)` the result is `diff - (2^len - 1)`,
else `diff` unchanged" on the in-range domain `[0, 2^len - 1]`, and its
round-trip table additionally fixes the out-of-range boundary
`signExtended(1 <<< len, len) = 1`.  The test rows shipped in the repository
(e.g. `(diff, len) = (0b10, 0b01) ↦ 1`) pin the sign test as a test of bit
`len - 1` of `diff` (two's-complement style), which agrees with the spec's
comparison rule on the whole in-range domain and also realizes the
out-of-range boundary rows. -/
def signExtended (diff len : ℕ) : ℤ :=
  if Nat.testBit diff (len - 1) then (diff : ℤ) else (diff : ℤ) - (2 ^ len - 1)

/-- Modelled from the spec: the recoverable error kinds of the table
subsystem (`InvalidTableError` payloads named by their messages).  The
constructor `wrongSymbolCount` appears in the spec's taxonomy for
`attachValues`/`setCodeValues`; the shipped death test
`setCodeValuesRequiresCount` pins that size check as a debug assertion, so
the modelled `setCodeValues` never returns it (see `setCodeValuesPre`). -/
inductive HTError where
  | tooManyCodesForLength (len : ℕ)
  | emptyTable
  | tooManyTotalCodes
  | wrongSymbolCount
  | tooManySymbols
  | symbolValueOutOfRange
deriving DecidableEq

/-- Modelled from the spec: `AbstractHuffmanTable::maxCodesCount`, the total
of all per-length codeword counts of a histogram. -/
def maxCodesCount (counts : List ℕ) : ℕ := counts.sum

/-- Modelled from the spec and the shipped death test
`setNCodesPerLengthRequires16Lengths`: the contract precondition of
`setNCodesPerLength` (`assert(data.getSize() == 16)`), a debug assertion
rather than a recoverable failure. -/
def setNCodesPerLengthPre (data : List ℕ) : Bool := data.length == 16

/-- Modelled from the spec: while consuming the 16 per-length counts,
the first (1-based) length whose running count exceeds `2^len - 1`,
if any; index `i` of the list holds the count for bit-length `i + 1`. -/
def firstOverfullLength (data : List ℕ) : Option ℕ :=
  (List.range data.length).find? (fun i => decide (2 ^ (i + 1) - 1 < data.getD i 0))

/-- Modelled from the spec: `AbstractHuffmanTable::setNCodesPerLength`
(implementation not among the shipped sources).  Per-length counts are
validated while being consumed (`tooManyCodesForLength`); after all 16
bytes, a zero total is rejected as `emptyTable` and a total above 162 as
`tooManyTotalCodes`.  On success the histogram is returned with trailing
zero-length entries retained in storage (they are ignored by equality,
see `htEq`). -/
def setNCodesPerLength (data : List ℕ) : Except HTError (List ℕ) :=
  match firstOverfullLength data with
  | some i => .error (.tooManyCodesForLength (i + 1))
  | none =>
    if maxCodesCount data = 0 then .error .emptyTable
    else if 162 < maxCodesCount data then .error .tooManyTotalCodes
    else .ok data

/-- Modelled from the spec and the shipped death tests
`setCodeValuesRequiresCount` and `setCodeValuesRequiresLessThan162`: the
contract precondition of `setCodeValues`
(`assert(data.getSize() <= 162)` and
`assert(data.getSize() == maxCodesCount())`), debug assertions rather
than recoverable failures. -/
def setCodeValuesPre (counts values : List ℕ) : Bool :=
  values.length ≤ 162 && values.length == maxCodesCount counts

/-- Modelled from the spec: `AbstractHuffmanTable::setCodeValues`
(`attachValues`; implementation not among the shipped sources).  The
recoverable check: any symbol value above 16 is rejected with
`symbolValueOutOfRange` (the shipped test `setCodeValuesValueLessThan16`
pins this as a thrown, recoverable error); the size checks are the
assertion `setCodeValuesPre`. -/
def setCodeValues (values : List ℕ) : Except HTError (List ℕ) :=
  if values.any (fun v => 16 < v) then .error .symbolValueOutOfRange
  else .ok values

/-- Decidable equality of `Except` results, so that concrete runs of the
modelled operations can be checked by evaluation. -/
instance {ε α : Type} [DecidableEq ε] [DecidableEq α] : DecidableEq (Except ε α)
  | .error e, .error f =>
    if h : e = f then .isTrue (by rw [h])
    else .isFalse (fun hh => h (by cases hh; rfl))
  | .error _, .ok _ => .isFalse (fun hh => Except.noConfusion hh)
  | .ok _, .error _ => .isFalse (fun hh => Except.noConfusion hh)
  | .ok a, .ok b =>
    if h : a = b then .isTrue (by rw [h])
    else .isFalse (fun hh => h (by cases hh; rfl))

/-- A 16-entry per-length count list whose only non-zero count is `v`,
at (0-based) index `i`, i.e. for bit-length `i + 1`; mirrors the inputs
built by the shipped tests. -/
def oneAt (i v : ℕ) : List ℕ :=
  (List.range 16).map (fun j => if j = i then v else 0)

/-- Modelled from the spec: trailing zero-length entries of a histogram
are semantically irrelevant; this removes them before comparison. -/
def trimTrailingZeros (l : List ℕ) : List ℕ :=
  (l.reverse.dropWhile (fun x => x == 0)).reverse

/-- Modelled from the spec: a `CanonicalTable` (`AbstractHuffmanTable`):
a per-length histogram plus optionally-attached symbol values (`none`
before `setCodeValues` ran). -/
structure HuffmanTable where
  nCodesPerLength : List ℕ
  codeValues : Option (List ℕ)
deriving DecidableEq

/-- Modelled from the spec: equality of tables.  Histograms are compared
with trailing zero-length entries trimmed; when both tables have symbol
values attached, the values must agree. -/
def htEq (a b : HuffmanTable) : Bool :=
  trimTrailingZeros a.nCodesPerLength == trimTrailingZeros b.nCodesPerLength &&
    match a.codeValues, b.codeValues with
    | some va, some vb => va == vb
    | _, _ => true

/-- TIFF data types used by `FiffParser::getDecoder`: `TIFF_UNDEFINED`,
`TIFF_SHORT` (for `IMAGEWIDTH`/`FUJIOLDWB` tags), `TIFF_OFFSET` and
`TIFF_LONG` (for the fallback strip entries). -/
inductive TiffTypeM where
  | undefinedT
  | shortT
  | offsetT
  | longT
deriving DecidableEq

/-- TIFF tags as used by `FiffParser::getDecoder`: the two named Fuji
strip tags, and raw 16-bit tags cast from the Fuji raw-information
directory (`(TiffTag)tag`). -/
inductive TagM where
  | fujiStripOffsets
  | fujiStripByteCounts
  | raw (tag : ℕ)
deriving DecidableEq

/-- Payload of a built `TiffEntry`: either a copied 32-bit word
(`ByteStream::createCopy` of a `uint32`) or a sub-stream slice
(`bytes.getSubStream(pos, len)`, positions relative to the raw-info
directory start). -/
inductive PayloadM where
  | word (v : ℕ)
  | slice (pos len : ℕ)
deriving DecidableEq

/-- A `TiffEntry` as built by `FiffParser::getDecoder`: tag, data type,
count, payload. -/
structure TiffEntryM where
  tag : TagM
  dtype : TiffTypeM
  count : ℕ
  payload : PayloadM
deriving DecidableEq

/-- Default entry used only as the `List.getD` fallback in statements. -/
def defaultEntry : TiffEntryM :=
  ⟨TagM.raw 0, TiffTypeM.undefinedT, 0, PayloadM.word 0⟩

/-- The failure modes of `FiffParser::getDecoder`: an I/O failure of the
initial 104-byte header read, the `FiffParserException`
"ParseFuji: Too many entries", and the outer
"FiffParser: No decoder found. Sorry." raised when a
`TiffParserException` escapes the main try block. -/
inductive FiffError where
  | ioError
  | tooManyEntries
  | noDecoderFound
deriving DecidableEq

/-- What `FiffParser::getDecoder` assembles before calling `makeDecoder`:
the root IFD parsed at the first offset (abstract handle), the list of
sub-trees added to it from the second offset, and the entries added to
the extra sub-IFD, in insertion order. -/
structure FiffResult where
  rootMain : ℕ
  rootAdds : List ℕ
  subEntries : List TiffEntryM
deriving DecidableEq

/-- Unsigned 32-bit subtraction (`uint32` wrap-around), as performed by
`second_ifd - first_ifd` and `mInput->getSize() - second_ifd`. -/
def sub32 (a b : ℕ) : ℕ := (a % 2 ^ 32 + 2 ^ 32 - b % 2 ^ 32) % 2 ^ 32

/-- The environment of one `FiffParser::getDecoder` run, embedding
src/src/librawspeed/parsers/FiffParser.cpp.  The out-of-scope
collaborators are abstracted as oracle fields fixed by the input file:
`u32At` is `getU32BE(data + off)` on the header; `isValid` is
`FileMap::isValid`; `parseTiffAt o` is `parseTiff(mInput->getSubView(o))`
(an `error` is a `TiffParserException`); `entryCountAt` is the
`bytes.getUInt()` read at the raw-info directory; `entryStream i` is the
i-th `(tag, length)` pair of `bytes.getShort()` reads; `isShortTag`
decides `tag == IMAGEWIDTH || tag == FUJIOLDWB` (the numeric tag values
live in TiffTag.h, outside the shipped sources); `makeDecoderOk` is
whether the final `makeDecoder` call succeeds. -/
structure FiffEnv where
  fileSize : ℕ
  u32At : ℕ → ℕ
  isValid : ℕ → Bool
  parseTiffAt : ℕ → Except Unit ℕ
  entryCountAt : ℕ → ℕ
  entryStream : ℕ → ℕ × ℕ
  isShortTag : ℕ → Bool
  makeDecoderOk : Bool

/-- `first_ifd = getU32BE(data + 0x54) + 12` (`uint32` arithmetic). -/
def firstIfd (env : FiffEnv) : ℕ := (env.u32At 0x54 % 2 ^ 32 + 12) % 2 ^ 32

/-- `second_ifd = getU32BE(data + 0x64)`. -/
def secondIfd (env : FiffEnv) : ℕ := env.u32At 0x64 % 2 ^ 32

/-- `third_ifd = getU32BE(data + 0x5C)`. -/
def thirdIfd (env : FiffEnv) : ℕ := env.u32At 0x5C % 2 ^ 32

/-- The two entries recorded when parsing the second IFD as TIFF fails:
`FUJI_STRIPOFFSETS = second_ifd - first_ifd` (offset relative to the
root IFD) and `FUJI_STRIPBYTECOUNTS = mInput->getSize() - second_ifd`. -/
def fujiFallbackEntries (env : FiffEnv) : List TiffEntryM :=
  [⟨TagM.fujiStripOffsets, TiffTypeM.offsetT, 1,
    PayloadM.word (sub32 (secondIfd env) (firstIfd env))⟩,
   ⟨TagM.fujiStripByteCounts, TiffTypeM.longT, 1,
    PayloadM.word (sub32 env.fileSize (secondIfd env))⟩]

/-- The raw-information directory loop of `FiffParser::getDecoder`:
reads `n` entries starting at stream index `i` and stream position `pos`
(position 4 after the initial `getUInt`); each iteration reads two
16-bit words (tag, length), assigns `TIFF_SHORT` with `count = length/2`
for the two short tags and `TIFF_UNDEFINED` with `count = length`
otherwise, takes the payload slice at the position after the two reads,
then skips `length` bytes. -/
def readFujiEntries (env : FiffEnv) : ℕ → ℕ → ℕ → List TiffEntryM
  | 0, _, _ => []
  | n + 1, i, pos =>
    let tag := (env.entryStream i).1 % 2 ^ 16
    let length := (env.entryStream i).2 % 2 ^ 16
    let dtype := if env.isShortTag tag then TiffTypeM.shortT else TiffTypeM.undefinedT
    let count := if env.isShortTag tag then length / 2 else length
    ⟨TagM.raw tag, dtype, count, PayloadM.slice (pos + 4) length⟩ ::
      readFujiEntries env n (i + 1) (pos + 4 + length)

/-- The tail of `FiffParser::getDecoder`: `rootIFD->add(move(subIFD))`
followed by `return makeDecoder(move(rootIFD), *mInput)`, whose
`TiffParserException` is turned into "No decoder found" by the outer
catch. -/
def finishDecode (env : FiffEnv) (root : ℕ) (adds : List ℕ)
    (subs : List TiffEntryM) : Except FiffError FiffResult :=
  if env.makeDecoderOk then .ok ⟨root, adds, subs⟩
  else .error .noDecoderFound

/-- Shallow embedding of `FiffParser::getDecoder`
(src/src/librawspeed/parsers/FiffParser.cpp, lines 43-109): read the
header, parse the first IFD (failure escapes as "No decoder found"); if
the second offset is valid try to parse it as TIFF, swallowing a
`TiffParserException` in favour of the two Fuji strip fallback entries;
if the third offset is valid read the raw-information directory,
rejecting more than 255 declared entries before reading any, otherwise
appending every declared entry in order; finally hand the assembled tree
to `makeDecoder`. -/
def getDecoder (env : FiffEnv) : Except FiffError FiffResult :=
  if env.fileSize < 104 then .error .ioError
  else
    match env.parseTiffAt (firstIfd env) with
    | .error _ => .error .noDecoderFound
    | .ok root =>
      let second : List ℕ × List TiffEntryM :=
        if env.isValid (secondIfd env) then
          match env.parseTiffAt (secondIfd env) with
          | .ok t => ([t], [])
          | .error _ => ([], fujiFallbackEntries env)
        else ([], [])
      if env.isValid (thirdIfd env) then
        let entries := env.entryCountAt (thirdIfd env) % 2 ^ 32
        if 255 < entries then .error .tooManyEntries
        else finishDecode env root second.1
          (second.2 ++ readFujiEntries env entries 0 4)
      else finishDecode env root second.1 second.2

/-- Concrete environment exercising the C9 fallback: header reads give
`first_ifd = 20`, `second_ifd = 120`, `third_ifd = 50`; only the second
offset is valid; TIFF parsing succeeds at 20 and fails at 120. -/
def envC9 : FiffEnv where
  fileSize := 200
  u32At := fun a => if a = 0x54 then 8 else if a = 0x64 then 120 else 50
  isValid := fun o => o == 120
  parseTiffAt := fun o => if o = 20 then .ok 7 else .error ()
  entryCountAt := fun _ => 0
  entryStream := fun _ => (0, 0)
  isShortTag := fun _ => false
  makeDecoderOk := true

/-- Concrete environment exercising the C10 raw-information loop:
`first_ifd = 20`, `third_ifd = 50` valid with 2 declared entries of
length 3 each; the second offset is invalid. -/
def envC10 : FiffEnv where
  fileSize := 200
  u32At := fun a => if a = 0x54 then 8 else if a = 0x64 then 120 else 50
  isValid := fun o => o == 50
  parseTiffAt := fun o => if o = 20 then .ok 5 else .error ()
  entryCountAt := fun _ => 2
  entryStream := fun i => (i, 3)
  isShortTag := fun _ => false
  makeDecoderOk := true

/-- C1: the spec round-trip table for `signExtended` holds exactly:
`signExtended(0,1) = -1`, `signExtended(1,1) = 1`, `signExtended(2,2) = 2`,
`signExtended(0,2) = -3`, and for every `len` in 1..16 the out-of-range
boundary `signExtended(1 <<< len, len) = 1` and the pass-through row
`signExtended(2^len - 1, len) = 2^len - 1`. -/
theorem c1_signExtended_table :
    signExtended 0 1 = -1 ∧ signExtended 1 1 = 1 ∧
    signExtended 2 2 = 2 ∧ signExtended 0 2 = -3 ∧
    ∀ l : Fin 16,
      signExtended (2 ^ (l.1 + 1)) (l.1 + 1) = 1 ∧
      signExtended (2 ^ (l.1 + 1) - 1) (l.1 + 1) = ((2 ^ (l.1 + 1) - 1 : ℕ) : ℤ) := by
  refine ⟨by decide, by decide, by decide, by decide, ?_⟩
  decide

/-- C2: over the whole in-range domain (`len` in 1..16, `diff < 2^len`),
`signExtended` computes `diff - (2^len - 1)` when `diff < 2^(len-1)` and
returns `diff` unchanged otherwise. -/
theorem c2_signExtended_in_range (len diff : ℕ) (h1 : 1 ≤ len) (h2 : len ≤ 16)
    (h3 : diff < 2 ^ len) :
    signExtended diff len =
      if diff < 2 ^ (len - 1) then (diff : ℤ) - (2 ^ len - 1) else (diff : ℤ) := by
  obtain ⟨k, rfl⟩ : ∃ k, len = k + 1 := ⟨len - 1, (Nat.succ_pred_eq_of_pos h1).symm⟩
  have hbit : Nat.testBit diff k = decide (diff / 2 ^ k % 2 = 1) :=
    Nat.testBit_to_div_mod
  rcases Nat.lt_or_ge diff (2 ^ k) with hlt | hge
  · have hdiv : diff / 2 ^ k = 0 := Nat.div_eq_of_lt hlt
    have hfalse : Nat.testBit diff k = false := by
      rw [hbit, hdiv]
      decide
    simp only [signExtended, Nat.add_sub_cancel, hfalse, Bool.false_eq_true,
      if_false, hlt, if_true]
  · have hub : diff / 2 ^ k < 2 := by
      have h2k : 0 < 2 ^ k := Nat.pos_pow_of_pos k (by decide)
      rw [Nat.div_lt_iff_lt_mul h2k]
      calc diff < 2 ^ (k + 1) := h3
        _ = 2 ^ k * 2 := Nat.pow_succ 2 k
        _ = 2 * 2 ^ k := Nat.mul_comm _ _
    have hlb : 1 ≤ diff / 2 ^ k :=
      (Nat.one_le_div_iff (Nat.pos_pow_of_pos k (by decide))).mpr hge
    have hdiv : diff / 2 ^ k = 1 := Nat.le_antisymm (Nat.lt_succ_iff.mp hub) hlb
    have htrue : Nat.testBit diff k = true := by
      rw [hbit, hdiv]
      decide
    have hnlt : ¬ diff < 2 ^ k := Nat.not_lt.mpr hge
    simp only [signExtended, Nat.add_sub_cancel, htrue, if_true, hnlt, if_false]

/-- Witness for C2 at `len = 3`, `diff = 5`. -/
theorem c2_witness :
    (1 ≤ 3 ∧ 3 ≤ 16 ∧ 5 < 2 ^ 3) ∧
    signExtended 5 3 = if 5 < 2 ^ (3 - 1) then (5 : ℤ) - (2 ^ 3 - 1) else (5 : ℤ) :=
  ⟨⟨by decide, by decide, by decide⟩,
   c2_signExtended_in_range 3 5 (by decide) (by decide) (by decide)⟩

/-- Helper: a histogram whose per-length counts all respect the
per-length ceiling `2^len - 1` triggers no `tooManyCodesForLength`. -/
theorem firstOverfullLength_eq_none (data : List ℕ)
    (h : ∀ i, i < data.length → data.getD i 0 ≤ 2 ^ (i + 1) - 1) :
    firstOverfullLength data = none := by
  unfold firstOverfullLength
  rw [List.find?_eq_none]
  intro i hi
  rw [List.mem_range] at hi
  simp only [decide_eq_true_eq]
  exact Nat.not_lt.mpr (h i hi)

/-- C3 counterexample: at length 8 the per-length count `2^8 - 1 = 255`
does not succeed as the claim states; it already exceeds the total-count
ceiling 162 and is rejected. -/
theorem c3_counterexample :
    setNCodesPerLength (oneAt 7 255) = .error .tooManyTotalCodes := by decide

/-- C3 amended: for every length `l` in 1..7 a per-length count of
`2^l - 1` succeeds and `2^l` is rejected with `tooManyCodesForLength l`;
for length 8 both `2^8 - 1 = 255` (total above 162) and `2^8 = 256`
(per-length ceiling) are rejected. -/
theorem c3_amended_per_length :
    (∀ l : Fin 7,
      setNCodesPerLength (oneAt l.1 (2 ^ (l.1 + 1) - 1)) =
        .ok (oneAt l.1 (2 ^ (l.1 + 1) - 1)) ∧
      setNCodesPerLength (oneAt l.1 (2 ^ (l.1 + 1))) =
        .error (.tooManyCodesForLength (l.1 + 1))) ∧
    setNCodesPerLength (oneAt 7 255) = .error .tooManyTotalCodes ∧
    setNCodesPerLength (oneAt 7 256) = .error (.tooManyCodesForLength 8) := by
  refine ⟨?_, by decide, by decide⟩
  decide

/-- C4 counterexample: with a one-codeword histogram and an empty value
list (count - 1 values), the size mismatch is not a recoverable
`InvalidTableError`: the recoverable validation succeeds, and what fails
is the debug-assertion precondition pinned by the shipped death test
`setCodeValuesRequiresCount`. -/
theorem c4_counterexample :
    setCodeValuesPre (oneAt 0 1) [] = false ∧
    setCodeValues [] = .ok [] ∧
    setCodeValues [] ≠ .error .wrongSymbolCount := by decide

/-- C4 amended: the value-count check of `setCodeValues` is a contract
precondition (debug assertion), not a recoverable error: for each tested
histogram (counts `2^l - 1` at length `l`, `l` in 1..7) the precondition
fails at `count - 1` and `count + 1` values, holds at exactly `count`
values, and with it satisfied the call succeeds. -/
theorem c4_amended_count_is_assertion :
    ∀ l : Fin 7,
      setCodeValuesPre (oneAt l.1 (2 ^ (l.1 + 1) - 1))
        (List.replicate (2 ^ (l.1 + 1) - 2) 0) = false ∧
      setCodeValuesPre (oneAt l.1 (2 ^ (l.1 + 1) - 1))
        (List.replicate (2 ^ (l.1 + 1) - 1) 0) = true ∧
      setCodeValuesPre (oneAt l.1 (2 ^ (l.1 + 1) - 1))
        (List.replicate (2 ^ (l.1 + 1)) 0) = false ∧
      setCodeValues (List.replicate (2 ^ (l.1 + 1) - 1) 0) =
        .ok (List.replicate (2 ^ (l.1 + 1) - 1) 0) := by
  decide

/-- C5: a 16-byte histogram totalling zero is rejected as `emptyTable`;
a total of exactly 162 (at length 8) succeeds; and any 16-byte histogram
that respects the per-length ceilings but totals 163 or more is rejected
as `tooManyTotalCodes`. -/
theorem c5_total_codes :
    (∀ data : List ℕ, data.length = 16 → maxCodesCount data = 0 →
        setNCodesPerLength data = .error .emptyTable) ∧
    setNCodesPerLength (oneAt 7 162) = .ok (oneAt 7 162) ∧
    (∀ data : List ℕ, data.length = 16 →
        (∀ i, i < 16 → data.getD i 0 ≤ 2 ^ (i + 1) - 1) →
        163 ≤ maxCodesCount data →
        setNCodesPerLength data = .error .tooManyTotalCodes) := by
  refine ⟨?_, by decide, ?_⟩
  · intro data hlen hsum
    have hzero : ∀ x ∈ data, x = 0 := by
      rw [← List.sum_eq_zero_iff]
      exact hsum
    have hnone : firstOverfullLength data = none := by
      refine firstOverfullLength_eq_none data ?_
      intro i hi
      rw [List.getD_eq_getElem data 0 hi, hzero _ (List.getElem_mem hi)]
      exact Nat.zero_le _
    unfold setNCodesPerLength
    rw [hnone, if_pos hsum]
  · intro data hlen hbound hsum
    have hnone : firstOverfullLength data = none := by
      refine firstOverfullLength_eq_none data ?_
      intro i hi
      rw [hlen] at hi
      exact hbound i hi
    have h1 : ¬ maxCodesCount data = 0 := by omega
    have h2 : 162 < maxCodesCount data := by omega
    unfold setNCodesPerLength
    rw [hnone, if_neg h1, if_pos h2]

/-- Witness for C5: the all-zero 16-byte histogram is rejected as empty,
and a total of 163 at length 8 is rejected as too many total codes. -/
theorem c5_witness :
    setNCodesPerLength (List.replicate 16 0) = .error .emptyTable ∧
    setNCodesPerLength (oneAt 7 163) = .error .tooManyTotalCodes :=
  ⟨c5_total_codes.1 (List.replicate 16 0) (by decide) (by decide),
   c5_total_codes.2.2 (oneAt 7 163) (by decide) (by decide) (by decide)⟩

/-- C6: for a one-codeword table, the value-count precondition holds for
every single-value list, and `setCodeValues` succeeds exactly for symbol
values in 0..16 and is rejected as `symbolValueOutOfRange` for every
value in 17..255. -/
theorem c6_value_range :
    ∀ v : Fin 256,
      setCodeValuesPre (oneAt 0 1) [v.1] = true ∧
      setCodeValues [v.1] =
        (if v.1 ≤ 16 then .ok [v.1] else .error .symbolValueOutOfRange) := by
  set_option maxRecDepth 4096 in decide

/-- Helper: dropping leading zeros of a reversed histogram is unaffected
by a block of zeros in front. -/
theorem dropWhile_zero_replicate_append (n : ℕ) (r : List ℕ) :
    List.dropWhile (fun x => x == 0) (List.replicate n 0 ++ r) =
      List.dropWhile (fun x => x == 0) r := by
  induction n with
  | zero => rfl
  | succ m ih => simp [List.replicate_succ, List.dropWhile_cons, ih]

/-- Helper: appending trailing zero counts does not change the trimmed
histogram. -/
theorem trimTrailingZeros_append_replicate (l : List ℕ) (n : ℕ) :
    trimTrailingZeros (l ++ List.replicate n 0) = trimTrailingZeros l := by
  unfold trimTrailingZeros
  rw [List.reverse_append, List.reverse_replicate,
    dropWhile_zero_replicate_append]

/-- C7: table equality ignores trailing zero-length histogram entries and
nothing else: it holds exactly when the trimmed histograms agree and,
whenever both tables have symbol values attached, the values agree;
appending trailing zero counts on either side never changes the verdict;
and the concrete shipped comparisons (equal trimmed pairs, differing
non-trailing counts, differing symbol values) behave accordingly. -/
theorem c7_equality_trimming :
    (∀ a b : HuffmanTable, htEq a b = true ↔
        (trimTrailingZeros a.nCodesPerLength = trimTrailingZeros b.nCodesPerLength ∧
         ∀ va vb, a.codeValues = some va → b.codeValues = some vb → va = vb)) ∧
    (∀ counts : List ℕ, ∀ vals : Option (List ℕ), ∀ n : ℕ, ∀ b : HuffmanTable,
        htEq ⟨counts ++ List.replicate n 0, vals⟩ b = htEq ⟨counts, vals⟩ b ∧
        htEq b ⟨counts ++ List.replicate n 0, vals⟩ = htEq b ⟨counts, vals⟩) ∧
    (htEq ⟨[1], none⟩ ⟨[1, 0], none⟩ = true ∧
     htEq ⟨[1, 0], none⟩ ⟨[1, 1], none⟩ = false ∧
     htEq ⟨[0, 1], none⟩ ⟨[1], none⟩ = false ∧
     htEq ⟨[1], some [0]⟩ ⟨[1, 0], some [0]⟩ = true ∧
     htEq ⟨[1], some [0]⟩ ⟨[1], some [1]⟩ = false ∧
     htEq ⟨[1, 0], some [0]⟩ ⟨[1], some [1]⟩ = false) := by
  refine ⟨?_, ?_, by decide, by decide, by decide, by decide, by decide, by decide⟩
  · rintro ⟨ca, va⟩ ⟨cb, vb⟩
    cases va <;> cases vb <;>
      simp [htEq, Bool.and_eq_true, beq_iff_eq]
  · intro counts vals n b
    constructor <;> simp [htEq, trimTrailingZeros_append_replicate]

/-- Witness for C7: instantiating the equality criterion at two concrete
lengths-only tables whose histograms differ only by a trailing zero. -/
theorem c7_witness : htEq ⟨[1, 0], none⟩ ⟨[1, 0, 0], none⟩ = true :=
  (c7_equality_trimming.1 ⟨[1, 0], none⟩ ⟨[1, 0, 0], none⟩).mpr
    ⟨by decide, fun va vb hva hvb => nomatch hva⟩

/-- C8: feeding `setNCodesPerLength` a histogram blob of any size 0..31
other than 16 violates the debug-assertion precondition (the contract
check fires, it is not a recoverable table error), while at exactly 16
bytes the precondition holds and construction proceeds normally. -/
theorem c8_requires_16_lengths :
    (∀ n : Fin 32, setNCodesPerLengthPre (List.replicate n.1 1) = (n.1 == 16)) ∧
    setNCodesPerLength (List.replicate 16 1) = .ok (List.replicate 16 1) := by
  refine ⟨?_, by decide⟩
  decide

/-- C9: when the header reads succeed, the first IFD parses, the second
IFD offset is valid but the bytes there fail to parse as TIFF, the
failure is not propagated: `getDecoder` records
`second_ifd - first_ifd` as a `FUJI_STRIPOFFSETS` entry and
`fileSize - second_ifd` as a `FUJI_STRIPBYTECOUNTS` entry in the
sub-IFD and completes decoding (here with no raw-information directory
and a succeeding `makeDecoder`). -/
theorem c9_second_ifd_fallback (env : FiffEnv) (t : ℕ) (e : Unit)
    (h0 : 104 ≤ env.fileSize)
    (h1 : env.parseTiffAt (firstIfd env) = .ok t)
    (h2 : env.isValid (secondIfd env) = true)
    (h3 : env.parseTiffAt (secondIfd env) = .error e)
    (h4 : env.isValid (thirdIfd env) = false)
    (h5 : env.makeDecoderOk = true) :
    getDecoder env = .ok ⟨t, [], fujiFallbackEntries env⟩ := by
  unfold getDecoder finishDecode
  rw [if_neg (Nat.not_lt.mpr h0), h1]
  simp only [h2, h3, h4, h5, if_true, if_false, Bool.false_eq_true]

/-- Witness for C9: a concrete file whose second IFD fails TIFF parsing;
the fallback records offset `120 - 20 = 100` and byte count
`200 - 120 = 80`. -/
theorem c9_witness :
    getDecoder envC9 = .ok ⟨7, [],
      [⟨TagM.fujiStripOffsets, TiffTypeM.offsetT, 1, PayloadM.word 100⟩,
       ⟨TagM.fujiStripByteCounts, TiffTypeM.longT, 1, PayloadM.word 80⟩]⟩ := by
  rw [c9_second_ifd_fallback envC9 7 () (by decide) (by decide) (by decide)
    (by decide) (by decide) (by decide)]
  decide

/-- C10: with a valid raw-information directory at the third IFD offset,
a declared entry count above 255 is rejected with the
`FiffParserException` "ParseFuji: Too many entries" before any entry is
read (the result carries no entries at all), while a count of at most
255 succeeds with exactly that many entries, each read in declaration
order: the k-th added entry carries the k-th tag of the stream. -/
theorem c10_raw_info_entries (env : FiffEnv) (t : ℕ)
    (h0 : 104 ≤ env.fileSize)
    (h1 : env.parseTiffAt (firstIfd env) = .ok t)
    (h2 : env.isValid (secondIfd env) = false)
    (h4 : env.isValid (thirdIfd env) = true)
    (h5 : env.makeDecoderOk = true) :
    (255 < env.entryCountAt (thirdIfd env) % 2 ^ 32 →
      getDecoder env = .error .tooManyEntries) ∧
    (env.entryCountAt (thirdIfd env) % 2 ^ 32 ≤ 255 →
      getDecoder env = .ok ⟨t, [],
        readFujiEntries env (env.entryCountAt (thirdIfd env) % 2 ^ 32) 0 4⟩) ∧
    (∀ n i p, (readFujiEntries env n i p).length = n) ∧
    (∀ n i p k, k < n →
      ((readFujiEntries env n i p).getD k defaultEntry).tag =
        TagM.raw ((env.entryStream (i + k)).1 % 2 ^ 16)) := by
  have hlen : ∀ n i p, (readFujiEntries env n i p).length = n := by
    intro n
    induction n with
    | zero => intro i p; rfl
    | succ m ih =>
      intro i p
      simp only [readFujiEntries, List.length_cons, ih]
  refine ⟨?_, ?_, hlen, ?_⟩
  · intro hmany
    unfold getDecoder
    rw [if_neg (Nat.not_lt.mpr h0), h1]
    simp only [h2, h4, if_true, if_false, Bool.false_eq_true, hmany]
  · intro hfew
    unfold getDecoder finishDecode
    rw [if_neg (Nat.not_lt.mpr h0), h1]
    simp only [h2, h4, h5, if_true, if_false, Bool.false_eq_true,
      if_neg (Nat.not_lt.mpr hfew), List.nil_append]
  · intro n
    induction n with
    | zero => intro i p k hk; cases hk
    | succ m ih =>
      intro i p k hk
      cases k with
      | zero => simp [readFujiEntries]
      | succ j =>
        have hj : j < m := Nat.lt_of_succ_lt_succ hk
        have := ih (i + 1) (p + 4 + (env.entryStream i).2 % 2 ^ 16) j hj
        simpa [readFujiEntries, Nat.add_assoc, Nat.add_comm, Nat.add_left_comm]
          using this

/-- Witness for C10: a concrete file declaring 2 raw-info entries of
length 3; both are added in order, with payload slices at positions 8
and 15. -/
theorem c10_witness :
    getDecoder envC10 = .ok ⟨5, [],
      [⟨TagM.raw 0, TiffTypeM.undefinedT, 3, PayloadM.slice 8 3⟩,
       ⟨TagM.raw 1, TiffTypeM.undefinedT, 3, PayloadM.slice 15 3⟩]⟩ := by
  have h := (c10_raw_info_entries envC10 5 (by decide) (by decide) (by decide)
    (by decide) (by decide)).2.1 (by decide)
  rw [h]
  decide
